import Mathlib

set_option maxRecDepth 8000

/-!
# Verification of the PRPM canonical conversion engine

Shallow embedding of the agents.md parser (`fromAgentsMd`, `parseFrontmatter`,
`extractDescription`, `parseMarkdown`, `buildSection`, `inferSectionType`,
`inferTags` from `packages/registry/src/parsers/from-agents-md.ts`) and the
Cursor converter (`toCursor`, `generateMDCHeader`, `convertContent`,
`convertSection` and its per-section helpers from
`packages/registry/src/converters/to-cursor.ts`), plus a spec-modelled Kiro
converter (`toKiro`, whose implementation file is not part of the sources;
only its tests are).

Strings are modelled with Lean `String`, but every string operation the
embedded code performs is defined here by structural recursion over the
character list (so all definitions evaluate inside the kernel).  The few
JavaScript regular expressions in the source are hand-translated into
character-list functions, each documented at its definition.  JavaScript
truthiness on optional strings (`undefined` and `""` are falsy) is modelled
by `jsTruthyS`/`jsOr`; `undefined`/absent fields by `Option`.  A
`null`/`undefined` `data` payload on a metadata or persona section (only
producible by casting past the TypeScript types, as the converter
error-handling test does) is modelled by `Option` on the payload;
destructuring it throws in JS, modelled by the `Except` error channel of the
converter.
-/

namespace PRPM

/-! ## Kernel-evaluable string primitives -/

/-- `s.startsWith p` over the character lists. -/
def strStartsWith (s p : String) : Bool :=
  p.data.isPrefixOf s.data

/-- `s.substring(n)` (by characters; all dropped prefixes here are ASCII,
where JavaScript UTF-16 units and characters agree). -/
def strDrop (s : String) (n : Nat) : String :=
  String.mk (s.data.drop n)

/-- `s.substring(0, n)` (by characters). -/
def strTake (s : String) (n : Nat) : String :=
  String.mk (s.data.take n)

/-- `s.trim()`: strip leading and trailing whitespace. -/
def strTrim (s : String) : String :=
  String.mk (((s.data.dropWhile Char.isWhitespace).reverse.dropWhile
    Char.isWhitespace).reverse)

/-- `s.toLowerCase()` (ASCII; every keyword compared against is ASCII). -/
def strToLower (s : String) : String :=
  String.mk (s.data.map Char.toLower)

/-- Fuelled splitter: scan for the (non-empty) separator, emitting the
accumulated chunk at each occurrence.  The fuel exceeds the list length, so
the fuel-exhausted arm is never reached on the initial call. -/
def splitOnGo (sep : List Char) : Nat → List Char → List Char → List (List Char)
  | 0, l, acc => [acc.reverse ++ l]
  | _ + 1, [], acc => [acc.reverse]
  | n + 1, c :: rest, acc =>
    if sep.isPrefixOf (c :: rest) then
      acc.reverse :: splitOnGo sep n (List.drop (sep.length - 1) rest) []
    else splitOnGo sep n rest (c :: acc)

/-- `s.split(sep)` for a non-empty separator (the embedded code only splits
on `"\n"` and `"\n---\n"`). -/
def strSplitOn (s sep : String) : List String :=
  (splitOnGo sep.data (s.data.length + 1) s.data []).map String.mk

/-- Substring containment, the model of JavaScript
`String.prototype.includes`: `pat` occurs (contiguously) in the character
list. -/
def listContainsSub (pat : List Char) : List Char → Bool
  | [] => pat.isPrefixOf []
  | c :: rest => pat.isPrefixOf (c :: rest) || listContainsSub pat rest

/-- `strIncludes s pat` models the JavaScript `s.includes(pat)`. -/
def strIncludes (s pat : String) : Bool :=
  listContainsSub pat.data s.data

/-- Drop leading whitespace characters, the model of a leading `\s*`
consumed by a JavaScript regex replace. -/
def dropLeadingWs (s : String) : String :=
  String.mk (s.data.dropWhile Char.isWhitespace)

/-- JavaScript truthiness of an optional string: `undefined` and `""` are
falsy, every other string is truthy. -/
def jsTruthyS : Option String → Bool
  | some s => s != ""
  | none => false

/-- JavaScript `a || d` for an optional string `a` and default `d`: the
default is taken when `a` is `undefined` or the empty string. -/
def jsOr (o : Option String) (d : String) : String :=
  match o with
  | some s => if s = "" then d else s
  | none => d

/-- Model of the JavaScript regex test `/^\d+\.\s/`: one or more digits, a
dot, then a whitespace character.  (Backtracking adds nothing here: only the
maximal digit run can be followed by a non-digit `.`.) -/
def matchesOrdinal (s : String) : Bool :=
  let cs := s.data
  let ds := cs.takeWhile Char.isDigit
  match ds, cs.drop ds.length with
  | [], _ => false
  | _ :: _, '.' :: w :: _ => w.isWhitespace
  | _, _ => false

/-- Model of `line.replace(/^[-\d.]\s+/, '')`: the class matches exactly one
character (`-`, a digit, or `.`), which must be followed by at least one
whitespace character; the marker and the whitespace run are removed, else
the line is unchanged. -/
def stripListMarker (line : String) : String :=
  match line.data with
  | c :: rest =>
    if (c == '-' || c.isDigit || c == '.')
        && (match rest with | w :: _ => w.isWhitespace | [] => false) then
      String.mk (rest.dropWhile Char.isWhitespace)
    else line
  | [] => line

/-- The apostrophe character, built by code point so this file carries no
literal apostrophes. -/
def apos : String := String.mk [Char.ofNat 39]

/-! ## Canonical data model (types/canonical.ts) -/

/-- `Rule` of the canonical model: `{ content, rationale?, examples? }`. -/
structure RuleItem where
  content : String
  rationale : Option String := none
  examples : Option (List String) := none
deriving DecidableEq, Repr

/-- `Example` of the canonical model:
`{ description, code, language?, good? }`. -/
structure ExampleItem where
  description : String
  code : String
  language : Option String := none
  good : Option Bool := none
deriving DecidableEq, Repr

/-- Payload of a `metadata` section (`section.data`). -/
structure MetaData where
  title : Option String := none
  description : Option String := none
  icon : Option String := none
deriving DecidableEq, Repr

/-- Payload of a `persona` section (`section.data`). -/
structure PersonaData where
  name : Option String := none
  role : Option String := none
  icon : Option String := none
  style : Option (List String) := none
  expertise : Option (List String) := none
deriving DecidableEq, Repr

/-- The tagged `Section` union.  The `data` payload of `metadata` and
`persona` is wrapped in `Option`: `none` models a `null`/`undefined` payload
smuggled past the TypeScript types (an "unexpected shape"); destructuring it
throws at runtime.  `unknownSection` models a runtime value whose `type` tag
is outside the union (the converter's `default` branch). -/
inductive Section where
  | metadata (data : Option MetaData)
  | instructions (title : String) (content : String) (priority : Option String)
  | rules (title : String) (items : List RuleItem) (ordered : Bool)
  | examples (title : String) (items : List ExampleItem)
  | persona (data : Option PersonaData)
  | context (title : String) (content : String)
  | tools (items : List String)
  | custom (editorType : Option String) (content : String)
  | unknownSection (tag : String)
deriving DecidableEq, Repr

/-- `CanonicalContent`: fixed format/version tags plus the ordered sections. -/
structure CanonicalContent where
  format : String := "canonical"
  version : String := "1.0"
  sections : List Section
deriving DecidableEq, Repr

/-- The free-form `pkg.metadata` bag, restricted to the keys the embedded
code reads (`title`, `description`, `globs`, `alwaysApply`, `version`) and
the keys the agents.md parser writes (`agentsMdProject`, `agentsMdScope`
standing for the nested `agentsMdConfig`). -/
structure PkgMeta where
  title : Option String := none
  description : Option String := none
  globs : Option (List String) := none
  alwaysApply : Option Bool := none
  version : Option String := none
  agentsMdProject : Option String := none
  agentsMdScope : Option String := none
deriving DecidableEq, Repr

/-- `CanonicalPackage`.  The taxonomy fields written by `setTaxonomy`
(format/subtype/legacy type constants) are not read by any embedded
operation and are omitted. -/
structure CanonicalPackage where
  id : String
  version : String
  name : String
  description : String
  author : String
  tags : List String
  sourceFormat : String
  metadata : PkgMeta
  content : CanonicalContent
deriving DecidableEq, Repr

/-! ## agents.md parser (from-agents-md.ts) -/

/-- `PackageMetadata` input of `fromAgentsMd`. -/
structure PackageMetadata where
  id : String
  name : String
  description : Option String := none
  author : Option String := none
  tags : Option (List String) := none
  version : Option String := none
deriving DecidableEq, Repr

/-- Frontmatter keys the parser extracts (`project`, `scope`). -/
structure Frontmatter where
  project : Option String := none
  scope : Option String := none
deriving DecidableEq, Repr

/-- Lookup of a top-level `key: value` line.  Models the external
`js-yaml.load` call restricted to the flat string mappings the parser reads;
the parser only keeps `project`/`scope` when they are strings. -/
def yamlLookup (lines : List String) (key : String) : Option String :=
  lines.findSome? (fun l =>
    if strStartsWith l (key ++ ": ") then
      some (strTrim (strDrop l (key.data.length + 2)))
    else none)

/-- Flat-mapping subset of `yaml.load` used by `parseFrontmatter`. -/
def parseYamlSubset (s : String) : Frontmatter :=
  let ls := strSplitOn s "\n"
  { project := yamlLookup ls "project", scope := yamlLookup ls "scope" }

/-- `parseFrontmatter`: the regex `/^---\n([\s\S]*?)\n---\n([\s\S]*)$/` with
a lazy first group takes the text up to the FIRST `\n---\n` as frontmatter;
no match leaves the whole content as the body.  A YAML parse failure is
caught in the source and degrades to empty frontmatter; the modelled subset
is total, so no failure path remains. -/
def parseFrontmatter (content : String) : Frontmatter × String :=
  if strStartsWith content "---\n" then
    match strSplitOn (strDrop content 4) "\n---\n" with
    | fmText :: p :: parts =>
      (parseYamlSubset fmText, String.intercalate "\n---\n" (p :: parts))
    | _ => ({}, content)
  else ({}, content)

/-- Loop body of `extractDescription`: skip `# ` headings (setting the
after-heading flag), stop at the next `## `/`### ` heading, collect trimmed
non-blank lines after the first heading. -/
def extractDescGo : List String → Bool → List String → List String
  | [], _, acc => acc
  | l :: rest, after, acc =>
    if strStartsWith l "# " then extractDescGo rest true acc
    else if after && (strStartsWith l "## " || strStartsWith l "### ") then acc
    else if after && strTrim l != "" then extractDescGo rest after (acc ++ [strTrim l])
    else extractDescGo rest after acc

/-- `extractDescription`: non-blank lines after the document's first `# `
heading up to the next sub-heading, joined by spaces, cut to 200.  (The
source cuts by UTF-16 units via `substring`; the model cuts by characters,
which agrees on the inputs considered here.) -/
def extractDescription (content : String) : String :=
  strTake (String.intercalate " " (extractDescGo (strSplitOn content "\n") false [])) 200

/-- The internal section type of the parser state machine. -/
inductive SType where
  | instructions
  | rules
  | examples
  | context
deriving DecidableEq, Repr

/-- The in-progress section accumulator (`currentSection`).  `items` and
`examples` model the arrays the source only allocates for `rules`/`examples`
sections; every access in the source is guarded by the matching type check. -/
structure CurSec where
  type : SType
  title : String
  content : List String
  items : List RuleItem
  examples : List ExampleItem
deriving DecidableEq, Repr

/-- The pending example accumulator (`currentCodeBlock`). -/
structure CodeAcc where
  description : String
  code : List String
  language : Option String := none
  good : Option Bool := none
deriving DecidableEq, Repr

/-- Keyword test: the lowercase title contains one of the keywords. -/
def titleHasAny (t : String) (keys : List String) : Bool :=
  keys.any (fun k => strIncludes t k)

/-- Lookahead of `inferSectionType`: scan (already sliced) following lines;
a list marker or ordinal decides `rules`, a `### ` heading or a fence opener
decides `examples`, otherwise keep scanning; default `instructions`. -/
def scanAhead : List String → SType
  | [] => SType.instructions
  | l :: rest =>
    let line := strTrim l
    if strStartsWith line "- " || matchesOrdinal line then SType.rules
    else if strStartsWith line "### " || strStartsWith line "```" then SType.examples
    else scanAhead rest

/-- `inferSectionType`: keyword sets in priority order
(examples, rules, context), then a 4-line lookahead. -/
def inferSectionType (title : String) (lookahead : List String) : SType :=
  let t := strToLower title
  if titleHasAny t ["example", "sample", "usage"] then SType.examples
  else if titleHasAny t
      ["rule", "guideline", "standard", "convention", "requirement",
       "must", "should"] then SType.rules
  else if titleHasAny t
      ["context", "background", "overview", "about", "introduction"] then
    SType.context
  else scanAhead (lookahead.take 4)

/-- Model of `description.replace(/^[✅❌]\s*/, '').replace(
/^(Preferred|Avoid|Do|Don't):\s*/i, '')`: strip one leading marker emoji and
following whitespace, then strip a case-insensitive
`Preferred:`/`Avoid:`/`Do:`/`Don`&`t:` tag and following whitespace.  (The
alternatives are mutually exclusive, so alternation order is irrelevant.) -/
def stripGoodBadMarker (d : String) : String :=
  let d1 := match d.data with
    | c :: rest =>
      if c == '✅' || c == '❌' then String.mk (rest.dropWhile Char.isWhitespace)
      else d
    | [] => d
  let low := strToLower d1
  if strStartsWith low "preferred:" then dropLeadingWs (strDrop d1 10)
  else if strStartsWith low "avoid:" then dropLeadingWs (strDrop d1 6)
  else if strStartsWith low ("don" ++ apos ++ "t:") then dropLeadingWs (strDrop d1 6)
  else if strStartsWith low "do:" then dropLeadingWs (strDrop d1 3)
  else d1

/-- Model of `subContent.replace(/^(Rationale|Why):\s*/, '')` (case
sensitive, guarded by a `startsWith` check at the call site). -/
def stripRationaleTag (s : String) : String :=
  if strStartsWith s "Rationale:" then dropLeadingWs (strDrop s 10)
  else if strStartsWith s "Why:" then dropLeadingWs (strDrop s 4)
  else s

/-- Model of `subContent.replace(/^Example:\s*`([^`]+)`/, '$1')`: when the
sub-bullet matches `Example:` + whitespace + a non-empty back-ticked span,
the matched part is replaced by the span's interior (any trailing text
survives); otherwise the string is unchanged. -/
def extractInlineExample (s : String) : String :=
  if strStartsWith s "Example:" then
    let cs := (strDrop s 8).data
    match cs.dropWhile Char.isWhitespace with
    | '`' :: r2 =>
      let inner := r2.takeWhile (fun c => c != '`')
      match inner, r2.drop inner.length with
      | _ :: _, '`' :: tail => String.mk (inner ++ tail)
      | _, _ => s
    | _ => s
  else s

/-- Replace the last rule item, if any (`items[items.length - 1]`). -/
def updateLast (items : List RuleItem) (f : RuleItem → RuleItem) : List RuleItem :=
  match items.getLast? with
  | some l => items.dropLast ++ [f l]
  | none => items

/-- Handling of a `   - ` sub-bullet inside a rules section: a
`Rationale:`/`Why:` tag sets the last rule's rationale, an `Example:` tag
appends to its examples, anything else is ignored. -/
def applySubBullet (items : List RuleItem) (sub : String) : List RuleItem :=
  if strStartsWith sub "Rationale:" || strStartsWith sub "Why:" then
    updateLast items (fun r => { r with rationale := some (stripRationaleTag sub) })
  else if strStartsWith sub "Example:" then
    updateLast items
      (fun r => { r with examples := some (r.examples.getD [] ++ [extractInlineExample sub]) })
  else items

/-- `buildSection`: close an accumulator into a canonical section.  A rules
section always gets `ordered := false`; free text joins with newlines. -/
def buildSection (c : CurSec) : Section :=
  match c.type with
  | SType.rules => Section.rules c.title c.items false
  | SType.examples => Section.examples c.title c.examples
  | SType.context => Section.context c.title (String.intercalate "\n" c.content)
  | SType.instructions =>
    Section.instructions c.title (String.intercalate "\n" c.content) none

/-- Emit the current section, if one is open. -/
def flush : Option CurSec → List Section
  | some c => [buildSection c]
  | none => []

/-- Is the open section a rules section? -/
def curIsRules : Option CurSec → Bool
  | some c => c.type == SType.rules
  | none => false

/-- Does the open section hold at least one rule item? -/
def curItemsNonempty : Option CurSec → Bool
  | some c => !c.items.isEmpty
  | none => false

/-- The line loop of `parseMarkdown`, in the source's branch order: `# `
heading, `## ` heading (with lookahead type inference over the next 4
lines), `### ` example description, fence toggle, in-code accumulation,
rules list item, rules sub-bullet, plain content.  Note the source tests
headings BEFORE the in-code-block flag, so a heading line inside a fence is
still treated as a heading. -/
def pmGo : List String → Option CurSec → Bool → Option CodeAcc → List Section
  | [], cur, _, _ => flush cur
  | line :: rest, cur, inCB, cb =>
    if strStartsWith line "# " then
      flush cur ++ pmGo rest
        (some { type := SType.context, title := "Project Overview",
                content := [strTrim (strDrop line 2)], items := [], examples := [] })
        inCB cb
    else if strStartsWith line "## " then
      let title := strTrim (strDrop line 3)
      flush cur ++ pmGo rest
        (some { type := inferSectionType title rest, title := title,
                content := [], items := [], examples := [] })
        inCB cb
    else if strStartsWith line "### " then
      let d := strTrim (strDrop line 4)
      pmGo rest cur inCB
        (some { description := stripGoodBadMarker d, code := [], language := none,
                good := some (strStartsWith d "✅"
                  || strIncludes (strToLower d) "preferred"
                  || strIncludes (strToLower d) "do:") })
    else if strStartsWith line "```" then
      if !inCB then
        let lang := if strTrim (strDrop line 3) == "" then none
          else some (strTrim (strDrop line 3))
        match cb with
        | some c => pmGo rest cur true (some { c with language := lang })
        | none => pmGo rest cur true
            (some { description := "Code example", code := [], language := lang,
                    good := none })
      else
        match cb, cur with
        | some c, some sec =>
          if sec.type == SType.examples then
            pmGo rest
              (some { sec with examples := sec.examples ++
                [{ description := c.description,
                   code := String.intercalate "\n" c.code,
                   language := c.language, good := c.good }] })
              false none
          else
            pmGo rest
              (some { sec with content := sec.content ++
                ["```" ++ c.language.getD "" ++ "\n"
                  ++ String.intercalate "\n" c.code ++ "\n```"] })
              false none
        | _, _ => pmGo rest cur false cb
    else if inCB && cb.isSome then
      pmGo rest cur inCB (cb.map (fun c => { c with code := c.code ++ [line] }))
    else if (strStartsWith line "- " || matchesOrdinal line) && curIsRules cur then
      pmGo rest
        (cur.map (fun sec => { sec with items := sec.items ++
          [{ content := strTrim (stripListMarker line), rationale := none,
             examples := none }] }))
        inCB cb
    else if strStartsWith line "   - " && curIsRules cur && curItemsNonempty cur then
      pmGo rest
        (cur.map (fun sec =>
          { sec with items := applySubBullet sec.items (strTrim (strDrop line 5)) }))
        inCB cb
    else if strTrim line != "" && cur.isSome then
      pmGo rest (cur.map (fun sec => { sec with content := sec.content ++ [line] }))
        inCB cb
    else
      pmGo rest cur inCB cb

/-- `parseMarkdown`: run the line state machine over the split body. -/
def parseMarkdown (content : String) : List Section :=
  pmGo (strSplitOn content "\n") none false none

/-- Fixed technology-keyword vocabulary of `inferTags`. -/
def techKeywords : List String :=
  ["typescript", "javascript", "python", "react", "testing",
   "api", "backend", "frontend", "database", "security"]

/-- `inferTags`: technology keywords found in the lowercased body (in
vocabulary order), then the `codex` marker when `codex`/`openai` occurs,
truncated to 5. -/
def inferTags (content : String) : List String :=
  let lower := strToLower content
  let tags := techKeywords.filter (fun k => strIncludes lower k)
  let tags :=
    if strIncludes lower "codex" || strIncludes lower "openai" then tags ++ ["codex"]
    else tags
  tags.take 5

/-- `fromAgentsMd`: split off frontmatter, parse the body, derive the
description, prepend the metadata section, fill the package record.  Note
`metadata.tags || [...]`: caller-supplied tags (any array, even empty)
replace the inferred list entirely. -/
def fromAgentsMd (content : String) (md : PackageMetadata) : CanonicalPackage :=
  let pf := parseFrontmatter content
  let body := pf.2
  let desc := jsOr md.description (extractDescription body)
  { id := md.id
    version := jsOr md.version "1.0.0"
    name := md.name
    description := desc
    author := md.author.getD ""
    tags := md.tags.getD ("agents.md" :: inferTags body)
    sourceFormat := "agents.md"
    metadata := { title := some md.name, description := some desc,
                  agentsMdProject := pf.1.project, agentsMdScope := pf.1.scope }
    content := { sections :=
      Section.metadata (some { title := some md.name, description := some desc })
        :: parseMarkdown body } }

/-! ## Cursor converter (to-cursor.ts) -/

/-- `CursorMDCConfig`. -/
structure CursorMDCConfig where
  version : Option String := none
  globs : Option (List String) := none
  alwaysApply : Option Bool := none
  author : Option String := none
  tags : Option (List String) := none
deriving DecidableEq, Repr

/-- `ConversionResult`.  `warnings` is `none` exactly when the source leaves
the field `undefined` (no warnings accumulated). -/
structure ConversionResult where
  content : String
  format : String
  warnings : Option (List String) := none
  lossyConversion : Bool
  qualityScore : Nat
deriving DecidableEq, Repr

/-- The warning list of a result, reading `undefined` as empty. -/
def ConversionResult.warningsList (r : ConversionResult) : List String :=
  r.warnings.getD []

/-- The shared lossy-classification rule: a warning is lossy exactly when it
contains `"not supported"` or `"skipped"`. -/
def isLossyWarning (w : String) : Bool :=
  strIncludes w "not supported" || strIncludes w "skipped"

/-- Message of the TypeError thrown by destructuring a `null`/`undefined`
metadata `section.data` (engine-produced text, modelled as a constant). -/
def metadataFaultMsg : String :=
  "Cannot destructure property title of section.data as it is null."

/-- Message of the TypeError thrown by destructuring a `null`/`undefined`
persona `section.data`. -/
def personaFaultMsg : String :=
  "Cannot destructure property name of section.data as it is null."

/-- `generateMDCHeader`: YAML frontmatter with the officially supported
fields (`description`, `globs`, `alwaysApply`) and the PRPM extension fields
(`title`, `version`, `tags`, `author`) as comment lines. -/
def generateMDCHeader (pkg : CanonicalPackage) (config : Option CursorMDCConfig) :
    String :=
  let descLines :=
    if jsTruthyS pkg.metadata.description then
      ["description: \"" ++ pkg.metadata.description.getD "" ++ "\""]
    else []
  let globs := (config.bind (fun c => c.globs)).orElse (fun _ => pkg.metadata.globs)
  let globLines := match globs with
    | some gs =>
      if gs.length > 0 then "globs:" :: gs.map (fun g => "  - \"" ++ g ++ "\"")
      else []
    | none => []
  let alwaysApply :=
    ((config.bind (fun c => c.alwaysApply)).orElse
      (fun _ => pkg.metadata.alwaysApply)).getD false
  let aaLine := ["alwaysApply: " ++ (if alwaysApply then "true" else "false")]
  let title := if jsTruthyS pkg.metadata.title then pkg.metadata.title.getD "" else pkg.id
  let titleLines := if title != "" then ["# title: \"" ++ title ++ "\""] else []
  let versionOpt :=
    if jsTruthyS (config.bind (fun c => c.version)) then config.bind (fun c => c.version)
    else pkg.metadata.version
  let versionLines :=
    if jsTruthyS versionOpt then ["# version: \"" ++ versionOpt.getD "" ++ "\""] else []
  let tagLines := match config.bind (fun c => c.tags) with
    | some ts =>
      if ts.length > 0 then "# tags:" :: ts.map (fun t => "#   - \"" ++ t ++ "\"")
      else []
    | none => []
  let authorOpt := config.bind (fun c => c.author)
  let authorLines :=
    if jsTruthyS authorOpt then ["# author: \"" ++ authorOpt.getD "" ++ "\""] else []
  String.intercalate "\n"
    (["---"] ++ descLines ++ globLines ++ aaLine ++ titleLines ++ versionLines
      ++ tagLines ++ authorLines ++ ["---"])

/-- `convertMetadata`: destructures `section.data` (a `null` payload throws);
title line with optional icon, then a blank line and the description. -/
def convertMetadataSec : Option MetaData → Except String String
  | none => Except.error metadataFaultMsg
  | some d =>
    let titleLines :=
      if jsTruthyS d.icon && d.title.isSome then
        ["# " ++ d.icon.getD "" ++ " " ++ d.title.getD ""]
      else match d.title with
        | some t => ["# " ++ t]
        | none => []
    let descLines := if jsTruthyS d.description then ["", d.description.getD ""] else []
    Except.ok (String.intercalate "\n" (titleLines ++ descLines))

/-- `convertInstructions`. -/
def convertInstructionsSec (title content : String) (priority : Option String) :
    String :=
  String.intercalate "\n"
    (["## " ++ title, ""]
      ++ (if priority == some "high" then ["**Important:**", ""] else [])
      ++ [content])

/-- Rendering of one rule inside `convertRules`: numbered or bulleted line,
optional indented italic rationale, indented `Example:` lines. -/
def renderRule (ordered : Bool) (idx : Nat) (r : RuleItem) : List String :=
  let pre := if ordered then toString (idx + 1) ++ "." else "-"
  [pre ++ " " ++ r.content]
    ++ (if jsTruthyS r.rationale then
          ["   - *Rationale: " ++ r.rationale.getD "" ++ "*"]
        else [])
    ++ (match r.examples with
        | some es => es.map (fun e => "   - Example: `" ++ e ++ "`")
        | none => [])

/-- Index-threading loop of `convertRules`. -/
def renderRulesGo (ordered : Bool) (idx : Nat) : List RuleItem → List String
  | [] => []
  | r :: rest => renderRule ordered idx r ++ renderRulesGo ordered (idx + 1) rest

/-- `convertRules`. -/
def convertRulesSec (title : String) (items : List RuleItem) (ordered : Bool) :
    String :=
  String.intercalate "\n" (["## " ++ title, ""] ++ renderRulesGo ordered 0 items)

/-- Rendering of one example inside `convertExamples`: polarity-prefixed
`### ` heading, blank line, fenced code block, blank line. -/
def renderExample (e : ExampleItem) : List String :=
  let pre := if e.good == some false then "❌ Bad" else "✅ Good"
  ["### " ++ pre ++ ": " ++ e.description, "",
   "```" ++ e.language.getD "", e.code, "```", ""]

/-- Concatenation of per-element lists, in order. -/
def listFlat (f : α → List β) : List α → List β
  | [] => []
  | a :: rest => f a ++ listFlat f rest

/-- `convertExamples`. -/
def convertExamplesSec (title : String) (exs : List ExampleItem) : String :=
  String.intercalate "\n"
    (["## " ++ title, ""] ++ listFlat renderExample exs)

/-- `convertPersona`: destructures `section.data` (a `null` payload throws);
`## Role` heading, name/icon/role line, style line, expertise list. -/
def convertPersonaSec : Option PersonaData → Except String String
  | none => Except.error personaFaultMsg
  | some d =>
    let roleLines :=
      if jsTruthyS d.icon && jsTruthyS d.name && d.role.isSome then
        [d.icon.getD "" ++ " **" ++ d.name.getD "" ++ "** - " ++ d.role.getD ""]
      else if jsTruthyS d.name && d.role.isSome then
        ["**" ++ d.name.getD "" ++ "** - " ++ d.role.getD ""]
      else match d.role with
        | some r => [r]
        | none => []
    let styleLines := match d.style with
      | some st =>
        if st.length > 0 then ["", "**Style:** " ++ String.intercalate ", " st]
        else []
      | none => []
    let expLines := match d.expertise with
      | some ex =>
        if ex.length > 0 then ["", "**Expertise:**"] ++ ex.map (fun a => "- " ++ a)
        else []
      | none => []
    Except.ok (String.intercalate "\n" (["## Role", ""] ++ roleLines ++ styleLines ++ expLines))

/-- `convertContext`. -/
def convertContextSec (title content : String) : String :=
  String.intercalate "\n" ["## " ++ title, "", content]

/-- `convertSection`: per-variant rendering with the warnings the variant
emits; `Except.error` models the TypeError escaping a destructure of a
`null` payload. -/
def convertSectionE : Section → Except String (String × List String)
  | Section.metadata d => (convertMetadataSec d).map (fun t => (t, []))
  | Section.instructions t c p => Except.ok (convertInstructionsSec t c p, [])
  | Section.rules t items ord => Except.ok (convertRulesSec t items ord, [])
  | Section.examples t exs => Except.ok (convertExamplesSec t exs, [])
  | Section.persona d => (convertPersonaSec d).map (fun t => (t, []))
  | Section.context t c => Except.ok (convertContextSec t c, [])
  | Section.tools _ => Except.ok ("", ["Tools section skipped (Claude-specific)"])
  | Section.custom et c =>
    match et with
    | none => Except.ok (c, [])
    | some e =>
      if e = "" || e = "cursor" then Except.ok (c, [])
      else Except.ok ("", ["Custom " ++ e ++ " section skipped"])
  | Section.unknownSection tag => Except.ok ("", ["Unknown section type: " ++ tag])

/-- The loop of `convertContent`: accumulate lines (each non-empty section
rendering followed by a blank line) and warnings, stopping at the first
thrown fault with the warnings gathered so far (the mutated array observed
by the catch). -/
def convertContentGo :
    List Section → List String → List String →
      Except (String × List String) (List String × List String)
  | [], lines, ws => Except.ok (lines, ws)
  | s :: rest, lines, ws =>
    match convertSectionE s with
    | Except.error m => Except.error (m, ws)
    | Except.ok (t, nws) =>
      if t = "" then convertContentGo rest lines (ws ++ nws)
      else convertContentGo rest (lines ++ [t, ""]) (ws ++ nws)

/-- `convertContent`: joined and trimmed section renderings, or the fault. -/
def convertContentE (sections : List Section) :
    Except (String × List String) (String × List String) :=
  match convertContentGo sections [] [] with
  | Except.ok (lines, ws) => Except.ok (strTrim (String.intercalate "\n" lines), ws)
  | Except.error e => Except.error e

/-- `toCursor`: header + converted content; lossy iff some warning matches
the lossy rule, with a fixed 10-point penalty; a fault caught at the
boundary yields empty content, `lossyConversion = true`, score 0 and a
`Conversion error:` warning. -/
def toCursor (pkg : CanonicalPackage) (config : Option CursorMDCConfig) :
    ConversionResult :=
  match convertContentE pkg.content.sections with
  | Except.ok (body, ws) =>
    let lossy := ws.any isLossyWarning
    { content := generateMDCHeader pkg config ++ "\n\n" ++ body
      format := "cursor"
      warnings := if ws.length > 0 then some ws else none
      lossyConversion := lossy
      qualityScore := if lossy then 100 - 10 else 100 }
  | Except.error (m, ws) =>
    { content := ""
      format := "cursor"
      warnings := some (ws ++ ["Conversion error: " ++ m])
      lossyConversion := true
      qualityScore := 0 }

/-! ### Specification-side views of the converter loop -/

/-- Does a section's `data` payload have the shape the converter's
destructuring requires?  False exactly for the `null` payloads. -/
def sectionOkB : Section → Bool
  | Section.metadata none => false
  | Section.persona none => false
  | _ => true

/-- All sections of the package are shape-correct: every value of the
TypeScript type `CanonicalPackage` satisfies this (the fault cases require
casting past the type system). -/
def WellFormed (pkg : CanonicalPackage) : Bool :=
  pkg.content.sections.all sectionOkB

/-- Some section carries a `null` payload: the internal-conversion-fault
precondition. -/
def HasFault (pkg : CanonicalPackage) : Bool :=
  pkg.content.sections.any (fun s => !sectionOkB s)

/-- The rendered text a section contributes to the output, `none` when the
section is skipped (renders empty) or faults. -/
def sectionRenderOpt (s : Section) : Option String :=
  match convertSectionE s with
  | Except.ok (t, _) => if t = "" then none else some t
  | Except.error _ => none

/-- The warnings a section contributes. -/
def sectionWarnings (s : Section) : List String :=
  match convertSectionE s with
  | Except.ok (_, w) => w
  | Except.error _ => []

/-- The body the converter produces for a section list, written as an
order-preserving filter: the non-skipped sections' renderings in input
order, each followed by a blank line, joined and trimmed. -/
def keptBody (sections : List Section) : String :=
  strTrim (String.intercalate "\n"
    (listFlat (fun t => [t, ""]) (sections.filterMap sectionRenderOpt)))

/-- All warnings of a section list, in order. -/
def allWarnings (sections : List Section) : List String :=
  listFlat sectionWarnings sections

/-! ## Kiro converter (spec-modelled) -/

/-- Kiro inclusion modes. -/
inductive KiroInclusion where
  | always
  | manual
  | fileMatch
deriving DecidableEq, Repr

/-- Kiro converter configuration. -/
structure KiroConfig where
  inclusion : Option KiroInclusion := none
  fileMatchPattern : Option String := none
  domain : Option String := none
deriving DecidableEq, Repr

/-- Wrapper options of `toKiro` (`{ kiroConfig?: ... }`). -/
structure KiroOptions where
  kiroConfig : Option KiroConfig := none
deriving DecidableEq, Repr

/-- Inclusion-mode keyword as written into the frontmatter. -/
def kiroInclusionStr : KiroInclusion → String
  | KiroInclusion.always => "always"
  | KiroInclusion.manual => "manual"
  | KiroInclusion.fileMatch => "fileMatch"

/-- Modelled from the spec: per-section rendering of the Kiro converter
(`to-kiro.ts` is not among the sources; only its tests are).  Persona and
tools sections are unconditionally unsupported and skipped with warnings;
instructions, rules, examples and context render under `## ` headings. -/
def kiroSectionRender : Section → String × List String
  | Section.metadata _ => ("", [])
  | Section.instructions t c _ => ("## " ++ t ++ "\n\n" ++ c, [])
  | Section.rules t items _ =>
    ("## " ++ t ++ "\n\n"
      ++ String.intercalate "\n" (items.map (fun r => "- " ++ r.content)), [])
  | Section.examples t exs =>
    ("## " ++ t ++ "\n\n"
      ++ String.intercalate "\n\n"
          (exs.map (fun e => "### " ++ e.description ++ "\n```\n" ++ e.code ++ "\n```")),
     [])
  | Section.context t c => ("## " ++ t ++ "\n\n" ++ c, [])
  | Section.persona _ => ("", ["Persona section skipped (not supported in Kiro)"])
  | Section.tools _ => ("", ["Tools section skipped (not supported in Kiro)"])
  | Section.custom _ _ => ("", ["Custom section skipped"])
  | Section.unknownSection tag => ("", ["Unknown section type: " ++ tag])

/-- Modelled from the spec: the successful rendering path of the Kiro
converter — explicit inclusion-mode frontmatter, domain label overriding the
title, quality score reduced for a missing description and for lossy
(skipped) sections by the shared lossy-detection rule. -/
def renderKiro (pkg : CanonicalPackage) (cfg : KiroConfig) (inc : KiroInclusion) :
    ConversionResult :=
  let fm := ["---", "inclusion: " ++ kiroInclusionStr inc]
    ++ (match cfg.fileMatchPattern with
        | some p => ["fileMatchPattern: \"" ++ p ++ "\""]
        | none => [])
    ++ (match cfg.domain with | some d => ["domain: " ++ d] | none => [])
    ++ ["---"]
  let title := match cfg.domain with
    | some d => d
    | none => pkg.metadata.title.getD pkg.name
  let rendered := pkg.content.sections.map kiroSectionRender
  let bodyParts := rendered.filterMap (fun p => if p.1 = "" then none else some p.1)
  let ws := listFlat (fun p => p.2) rendered
  let lossy := ws.any isLossyWarning
  let descPenalty := if jsTruthyS pkg.metadata.description then 0 else 10
  let lossyPenalty := if lossy then 10 else 0
  { content := String.intercalate "\n" fm ++ "\n\n# " ++ title
      ++ (match pkg.metadata.description with | some d => "\n\n" ++ d | none => "")
      ++ "\n\n" ++ String.intercalate "\n\n" bodyParts
    format := "kiro"
    warnings := if ws.length > 0 then some ws else none
    lossyConversion := lossy
    qualityScore := 100 - descPenalty - lossyPenalty }

/-- Modelled from the spec: `toKiro` requires the caller to supply an
inclusion mode and fails fast with a descriptive error naming the missing
configuration before producing any output (`Except.error` carries no
`ConversionResult`); `fileMatch` mode additionally requires
`fileMatchPattern`.  The error strings are the ones the converter's tests
assert. -/
def toKiro (pkg : CanonicalPackage) (options : Option KiroOptions) :
    Except String ConversionResult :=
  match options.bind (fun o => o.kiroConfig) with
  | none => Except.error "Kiro format requires inclusion mode"
  | some cfg =>
    match cfg.inclusion with
    | none => Except.error "Kiro format requires inclusion mode"
    | some KiroInclusion.fileMatch =>
      match cfg.fileMatchPattern with
      | none => Except.error "fileMatch inclusion mode requires fileMatchPattern"
      | some _ => Except.ok (renderKiro pkg cfg KiroInclusion.fileMatch)
    | some inc => Except.ok (renderKiro pkg cfg inc)

/-! ## Concrete scenario inputs -/

/-- A fixed sample `PackageMetadata` with no optional fields. -/
def sampleMd : PackageMetadata :=
  { id := "pkg-1", name := "Sample" }

/-- The example-polarity scenario input: a `### ❌ Bad: missing assertions`
heading followed by a fenced code block inside an examples section. -/
def badExampleInput : String :=
  "## Examples\n### ❌ Bad: missing assertions\n```typescript\nexpect(result).toBe(true)\n```\n"

/-- The round-trip scenario input of the spec. -/
def roundTripInput : String :=
  "# My Rules\n\nIntro text.\n\n## Guidelines\n\n- Use strict types\n   - Rationale: fewer runtime errors\n"

/-- The metadata-section payload `fromAgentsMd` builds when the body yields
no derived description. -/
def plainMetaData (md : PackageMetadata) : MetaData :=
  { title := some md.name, description := some (jsOr md.description "") }

/-! ## Claim theorems: the agents.md parser -/

/-- Claim C1, counterexample: on the example-polarity scenario input the
parser produces the example with `good = false`, but its description is
`"Bad: missing assertions"`, not `"missing assertions"`: the code strips the
`❌` marker and a `Preferred`/`Avoid`/`Do`/`Don`&`t` tag, never a `Bad:`
tag. -/
theorem parseMarkdown_bad_marker_not_stripped :
    parseMarkdown badExampleInput
      = [Section.examples "Examples"
          [{ description := "Bad: missing assertions",
             code := "expect(result).toBe(true)",
             language := some "typescript",
             good := some false }]]
    ∧ ¬ ("Bad: missing assertions" = "missing assertions") := by
  exact ⟨by decide, by decide⟩

/-- Claim C1, amended: a `### ❌ Bad: missing assertions` heading followed by
a fenced code block inside an examples section yields an `Example` whose
description is `"Bad: missing assertions"` (the `❌` marker is stripped, the
`Bad:` prefix is kept) and whose good flag is `false`. -/
theorem fromAgentsMd_bad_example_polarity (md : PackageMetadata) :
    (fromAgentsMd badExampleInput md).content.sections
      = [Section.metadata (some (plainMetaData md)),
         Section.examples "Examples"
          [{ description := "Bad: missing assertions",
             code := "expect(result).toBe(true)",
             language := some "typescript",
             good := some false }]] := by
  rfl

/-- Claim C2: on the round-trip scenario input the parser produces, besides
the prepended metadata section, exactly one context section titled
"Project Overview" whose content contains "My Rules", and exactly one rules
section titled "Guidelines" with exactly one rule whose content is
"Use strict types" and whose rationale is "fewer runtime errors". -/
theorem fromAgentsMd_roundtrip_scenario (md : PackageMetadata) :
    (fromAgentsMd roundTripInput md).content.sections
      = [Section.metadata
          (some { title := some md.name,
                  description := some (jsOr md.description "Intro text.") }),
         Section.context "Project Overview" "My Rules\nIntro text.",
         Section.rules "Guidelines"
          [{ content := "Use strict types",
             rationale := some "fewer runtime errors", examples := none }] false]
    ∧ strIncludes "My Rules\nIntro text." "My Rules" = true := by
  exact ⟨rfl, by decide⟩

/-- Claim C5 (the code violates the spec's invariant): a heading classified
as `rules` by keyword, followed by prose and no list items, yields a rules
section whose `items` list is empty. -/
theorem fromAgentsMd_empty_rules_section :
    (fromAgentsMd "## Guidelines\nFollow best practices.\n" sampleMd).content.sections
      = [Section.metadata (some (plainMetaData sampleMd)),
         Section.rules "Guidelines" [] false] := by
  decide

/-- Claim C6, counterexample: with caller-supplied tags `["custom"]` and a
body mentioning `typescript`, the returned tags are exactly `["custom"]`:
the inferred tag `typescript` (and the `agents.md` marker) are dropped, so
the tags are not a union of caller-supplied and inferred tags. -/
theorem fromAgentsMd_tags_not_union :
    (fromAgentsMd "use typescript here"
        { sampleMd with tags := some ["custom"] }).tags = ["custom"]
    ∧ inferTags "use typescript here" = ["typescript"]
    ∧ ¬ ("typescript" ∈ ["custom"]) := by
  exact ⟨by decide, by decide, by decide⟩

/-- Bound used by the amended tag claim: the inferred list is cut to 5. -/
theorem inferTags_le_five (content : String) : (inferTags content).length ≤ 5 := by
  unfold inferTags
  simp only [List.length_take]
  exact min_le_left _ _

/-- Claim C6, amended: caller-supplied tags (when present, even empty) are
returned verbatim and inferred tags are ignored; only when the caller
supplies no tags are the tags the `agents.md` marker followed by the
inferred tags (at most 5: fixed technology keywords in vocabulary order plus
the `codex` marker). -/
theorem fromAgentsMd_tags_override (content : String) (md : PackageMetadata) :
    (fromAgentsMd content md).tags
      = md.tags.getD ("agents.md" :: inferTags (parseFrontmatter content).2)
    ∧ (inferTags (parseFrontmatter content).2).length ≤ 5 := by
  exact ⟨rfl, inferTags_le_five _⟩

/-- Claim C7: the parser is total (every throw-capable spot in the source is
caught locally) and for every input text and metadata the resulting sections
start with the metadata section; in particular the empty string, a string
consisting only of front matter, and a string with an unmatched code fence
all yield exactly the metadata section and nothing else. -/
theorem fromAgentsMd_graceful_degradation (content : String) (md : PackageMetadata) :
    (∃ d rest, (fromAgentsMd content md).content.sections
        = Section.metadata (some d) :: rest)
    ∧ (fromAgentsMd "" md).content.sections
        = [Section.metadata (some (plainMetaData md))]
    ∧ (fromAgentsMd "---\nproject: demo\n---\n" md).content.sections
        = [Section.metadata (some (plainMetaData md))]
    ∧ (fromAgentsMd "```typescript\nconst x = 1" md).content.sections
        = [Section.metadata (some (plainMetaData md))] := by
  exact ⟨⟨_, _, rfl⟩, rfl, rfl, rfl⟩

/-! ## Claim theorems: the Kiro converter (spec-modelled) -/

/-- Claim C3: for every canonical package, calling `toKiro` without an
inclusion mode (no options, or options whose config has no inclusion) fails
fast with an error naming the inclusion-mode configuration and produces no
result; inclusion mode `fileMatch` without a `fileMatchPattern` fails fast
with an error naming `fileMatchPattern`. -/
theorem toKiro_fail_fast (pkg : CanonicalPackage) (p d dom : Option String) :
    toKiro pkg none = Except.error "Kiro format requires inclusion mode"
    ∧ toKiro pkg (some ⟨some ⟨none, p, d⟩⟩)
      = Except.error "Kiro format requires inclusion mode"
    ∧ toKiro pkg (some ⟨some ⟨some KiroInclusion.fileMatch, none, dom⟩⟩)
      = Except.error "fileMatch inclusion mode requires fileMatchPattern"
    ∧ strIncludes "Kiro format requires inclusion mode" "inclusion mode" = true
    ∧ strIncludes "fileMatch inclusion mode requires fileMatchPattern"
        "fileMatchPattern" = true := by
  exact ⟨rfl, rfl, rfl, by decide, by decide⟩

/-! ## Converter loop lemmas -/

/-- A shape-correct section converts without a fault. -/
theorem convertSectionE_ok (s : Section) (h : sectionOkB s = true) :
    ∃ t w, convertSectionE s = Except.ok (t, w) := by
  cases s with
  | metadata d =>
    cases d with
    | none => simp [sectionOkB] at h
    | some dd => exact ⟨_, _, rfl⟩
  | persona d =>
    cases d with
    | none => simp [sectionOkB] at h
    | some dd => exact ⟨_, _, rfl⟩
  | custom et c =>
    cases et with
    | none => exact ⟨_, _, rfl⟩
    | some e =>
      simp only [convertSectionE]
      split
      · exact ⟨_, _, rfl⟩
      · exact ⟨_, _, rfl⟩
  | instructions t c p => exact ⟨_, _, rfl⟩
  | rules t items ord => exact ⟨_, _, rfl⟩
  | examples t exs => exact ⟨_, _, rfl⟩
  | context t c => exact ⟨_, _, rfl⟩
  | tools ts => exact ⟨_, _, rfl⟩
  | unknownSection tag => exact ⟨_, _, rfl⟩

/-- A section with a `null` payload converts to a thrown fault. -/
theorem convertSectionE_err (s : Section) (h : sectionOkB s = false) :
    ∃ m, convertSectionE s = Except.error m := by
  cases s with
  | metadata d =>
    cases d with
    | none => exact ⟨_, rfl⟩
    | some dd => simp [sectionOkB] at h
  | persona d =>
    cases d with
    | none => exact ⟨_, rfl⟩
    | some dd => simp [sectionOkB] at h
  | custom et c => simp [sectionOkB] at h
  | instructions t c p => simp [sectionOkB] at h
  | rules t items ord => simp [sectionOkB] at h
  | examples t exs => simp [sectionOkB] at h
  | context t c => simp [sectionOkB] at h
  | tools ts => simp [sectionOkB] at h
  | unknownSection tag => simp [sectionOkB] at h

/-- On shape-correct sections the accumulator loop succeeds and computes the
order-preserving filter of the renderings plus the in-order warning
concatenation. -/
theorem convertContentGo_ok (ss : List Section) :
    ss.all sectionOkB = true → ∀ lines ws,
      convertContentGo ss lines ws
        = Except.ok (lines ++ listFlat (fun t => [t, ""]) (ss.filterMap sectionRenderOpt),
            ws ++ allWarnings ss) := by
  induction ss with
  | nil => intro _ lines ws; simp [convertContentGo, listFlat, allWarnings]
  | cons s rest ih =>
    intro hall lines ws
    rw [List.all_cons, Bool.and_eq_true] at hall
    obtain ⟨t, w, hE⟩ := convertSectionE_ok s hall.1
    have hr : sectionRenderOpt s = if t = "" then none else some t := by
      unfold sectionRenderOpt; rw [hE]
    have hw : sectionWarnings s = w := by
      unfold sectionWarnings; rw [hE]
    simp only [convertContentGo, hE]
    by_cases ht : t = ""
    · rw [if_pos ht, ih hall.2]
      simp [allWarnings, listFlat, hr, ht, hw, List.filterMap_cons, List.append_assoc]
    · rw [if_neg ht, ih hall.2]
      simp [allWarnings, listFlat, hr, ht, hw, List.filterMap_cons, List.append_assoc]

/-- On shape-correct sections `convertContent` succeeds with the kept body
and all warnings. -/
theorem convertContentE_ok (ss : List Section) (h : ss.all sectionOkB = true) :
    convertContentE ss = Except.ok (keptBody ss, allWarnings ss) := by
  unfold convertContentE
  rw [convertContentGo_ok ss h [] []]
  simp [keptBody]

/-- A section list containing a `null` payload makes the loop stop at a
fault. -/
theorem convertContentGo_err (ss : List Section) :
    ss.any (fun s => !sectionOkB s) = true → ∀ lines ws,
      ∃ m ws2, convertContentGo ss lines ws = Except.error (m, ws2) := by
  induction ss with
  | nil => intro h; simp at h
  | cons s rest ih =>
    intro hany lines ws
    by_cases hok : sectionOkB s = true
    · have hrest : rest.any (fun s => !sectionOkB s) = true := by
        rw [List.any_cons, Bool.or_eq_true] at hany
        rcases hany with h1 | h1
        · rw [hok] at h1; simp at h1
        · exact h1
      obtain ⟨t, w, hE⟩ := convertSectionE_ok s hok
      simp only [convertContentGo, hE]
      by_cases ht : t = ""
      · rw [if_pos ht]; exact ih hrest _ _
      · rw [if_neg ht]; exact ih hrest _ _
    · obtain ⟨m, hE⟩ := convertSectionE_err s (by
        cases hb : sectionOkB s with
        | false => rfl
        | true => exact absurd hb hok)
      exact ⟨m, ws, by simp only [convertContentGo, hE]⟩

/-! ## Claim theorems: the Cursor converter -/

/-- Claim C4: for every canonical package (shape-correct, as every value of
the TypeScript type is) and configuration, the result of `toCursor`
satisfies the quality-scoring rule: `lossyConversion` holds exactly when
some warning is lossy (contains "not supported" or "skipped"); a lossy
conversion scores exactly `100 - 10 < 100`; a non-lossy conversion —
whatever non-lossy warnings it carries — scores exactly 100. -/
theorem toCursor_quality_scoring (pkg : CanonicalPackage)
    (config : Option CursorMDCConfig) (h : WellFormed pkg = true) :
    ((toCursor pkg config).lossyConversion
        = ((toCursor pkg config).warningsList.any isLossyWarning))
    ∧ ((toCursor pkg config).lossyConversion = true →
        (toCursor pkg config).qualityScore = 100 - 10
          ∧ (toCursor pkg config).qualityScore < 100)
    ∧ ((toCursor pkg config).lossyConversion = false →
        (toCursor pkg config).qualityScore = 100) := by
  unfold toCursor
  rw [convertContentE_ok pkg.content.sections h]
  simp only [ConversionResult.warningsList]
  by_cases hlen : (allWarnings pkg.content.sections).length > 0
  · rw [if_pos hlen]
    by_cases hl : (allWarnings pkg.content.sections).any isLossyWarning = true
    · simp [hl]
    · simp only [Bool.not_eq_true] at hl
      simp [hl]
  · rw [if_neg hlen]
    have hnil : allWarnings pkg.content.sections = [] := by
      cases hw : allWarnings pkg.content.sections with
      | nil => rfl
      | cons a l => rw [hw] at hlen; simp at hlen
    simp [hnil]

/-- A fixed shape-correct package whose tools section makes the conversion
lossy. -/
def samplePkg : CanonicalPackage :=
  { id := "test", version := "1.0.0", name := "Test", description := "d",
    author := "a", tags := [], sourceFormat := "canonical",
    metadata := { title := some "Test", description := some "d" },
    content := { sections :=
      [Section.metadata (some { title := some "Test", description := some "d" }),
       Section.tools ["Read"]] } }

/-- Witness for claim C4 at `samplePkg`. -/
theorem toCursor_quality_scoring_witness :
    WellFormed samplePkg = true
    ∧ (((toCursor samplePkg none).lossyConversion
          = ((toCursor samplePkg none).warningsList.any isLossyWarning))
        ∧ ((toCursor samplePkg none).lossyConversion = true →
            (toCursor samplePkg none).qualityScore = 100 - 10
              ∧ (toCursor samplePkg none).qualityScore < 100)
        ∧ ((toCursor samplePkg none).lossyConversion = false →
            (toCursor samplePkg none).qualityScore = 100)) :=
  ⟨by decide, toCursor_quality_scoring samplePkg none (by decide)⟩

/-- Claim C8: for every canonical package in which some section's data has
an unexpected (`null`) shape, `toCursor` does not raise past its boundary:
it returns a value with empty content, `lossyConversion = true`,
`qualityScore = 0`, and a warning carrying the underlying fault message. -/
theorem toCursor_internal_fault (pkg : CanonicalPackage)
    (config : Option CursorMDCConfig) (h : HasFault pkg = true) :
    (toCursor pkg config).content = ""
    ∧ (toCursor pkg config).lossyConversion = true
    ∧ (toCursor pkg config).qualityScore = 0
    ∧ ∃ w m, w ∈ (toCursor pkg config).warningsList
        ∧ w = "Conversion error: " ++ m := by
  obtain ⟨m, ws2, hgo⟩ := convertContentGo_err pkg.content.sections h [] []
  unfold toCursor convertContentE
  rw [hgo]
  refine ⟨rfl, rfl, rfl, "Conversion error: " ++ m, m, ?_, rfl⟩
  simp [ConversionResult.warningsList]

/-- A package whose metadata section carries a `null` payload. -/
def faultPkg : CanonicalPackage :=
  { id := "bad", version := "1.0.0", name := "Bad", description := "d",
    author := "a", tags := [], sourceFormat := "canonical",
    metadata := { title := some "Bad", description := some "d" },
    content := { sections := [Section.metadata none] } }

/-- Witness for claim C8 at `faultPkg`. -/
theorem toCursor_internal_fault_witness :
    HasFault faultPkg = true
    ∧ ((toCursor faultPkg none).content = ""
        ∧ (toCursor faultPkg none).lossyConversion = true
        ∧ (toCursor faultPkg none).qualityScore = 0
        ∧ ∃ w m, w ∈ (toCursor faultPkg none).warningsList
            ∧ w = "Conversion error: " ++ m) :=
  ⟨by decide, toCursor_internal_fault faultPkg none (by decide)⟩

/-- Claim C9: for every canonical package (shape-correct) and configuration,
the body of the `toCursor` output is the order-preserving filter of the
input sections: the renderings of the non-skipped sections, in exactly their
input order (`List.filterMap` removes skipped sections and never reorders),
and the skipped kinds — tools, foreign-ecosystem custom, unrecognized
variants — never contribute a rendering. -/
theorem toCursor_section_order (pkg : CanonicalPackage)
    (config : Option CursorMDCConfig) (h : WellFormed pkg = true) :
    (toCursor pkg config).content
      = generateMDCHeader pkg config ++ "\n\n" ++ keptBody pkg.content.sections
    ∧ (∀ ts, sectionRenderOpt (Section.tools ts) = none)
    ∧ (∀ e c, e ≠ "" → e ≠ "cursor" →
        sectionRenderOpt (Section.custom (some e) c) = none)
    ∧ (∀ tag, sectionRenderOpt (Section.unknownSection tag) = none) := by
  refine ⟨?_, ?_, ?_, ?_⟩
  · unfold toCursor
    rw [convertContentE_ok pkg.content.sections h]
  · intro ts; rfl
  · intro e c he hc
    simp [sectionRenderOpt, convertSectionE, he, hc]
  · intro tag; rfl

/-- Witness for claim C9 at `samplePkg`. -/
theorem toCursor_section_order_witness :
    WellFormed samplePkg = true
    ∧ (toCursor samplePkg none).content
        = generateMDCHeader samplePkg none ++ "\n\n" ++ keptBody samplePkg.content.sections :=
  ⟨by decide, (toCursor_section_order samplePkg none (by decide)).1⟩

/-! ## Claim theorems: parser invariants -/

/-- Every section `flush` emits is a `buildSection` image. -/
theorem flush_mem (cur : Option CurSec) (s : Section) (h : s ∈ flush cur) :
    ∃ c, s = buildSection c := by
  cases cur with
  | none => simp [flush] at h
  | some c =>
    simp [flush] at h
    exact ⟨c, h⟩

/-- Every section the parser loop emits is a `buildSection` image. -/
theorem pmGo_mem (lines : List String) :
    ∀ cur inCB cb s, s ∈ pmGo lines cur inCB cb → ∃ c, s = buildSection c := by
  induction lines with
  | nil =>
    intro cur inCB cb s hs
    exact flush_mem cur s hs
  | cons line rest ih =>
    intro cur inCB cb s hs
    simp only [pmGo] at hs
    repeat' split at hs
    all_goals
      first
      | exact ih _ _ _ _ hs
      | { rcases List.mem_append.mp hs with h | h
          · exact flush_mem cur s h
          · exact ih _ _ _ _ h }

/-- A `buildSection` image that is a rules section has `ordered = false`. -/
theorem buildSection_rules (c : CurSec) (t : String) (items : List RuleItem)
    (ord : Bool) (h : buildSection c = Section.rules t items ord) : ord = false := by
  unfold buildSection at h
  split at h <;> simp_all

/-- The metadata section `fromAgentsMd` prepends, as a function of the
inputs. -/
def mdSectionOf (content : String) (md : PackageMetadata) : Section :=
  Section.metadata (some (MetaData.mk (some md.name)
    (some (jsOr md.description (extractDescription (parseFrontmatter content).2)))
    none))

/-- Claim C10: every rules section the parser produces has its ordered flag
`false`, whatever the input text (including ordinal-marked source lists) and
metadata. -/
theorem fromAgentsMd_rules_unordered (content : String) (md : PackageMetadata)
    (t : String) (items : List RuleItem) (ord : Bool)
    (h : Section.rules t items ord ∈ (fromAgentsMd content md).content.sections) :
    ord = false := by
  have hsec : (fromAgentsMd content md).content.sections
      = mdSectionOf content md
        :: parseMarkdown (parseFrontmatter content).2 := rfl
  rw [hsec] at h
  rcases List.mem_cons.mp h with h1 | h1
  · simp [mdSectionOf] at h1
  · obtain ⟨c, hc⟩ := pmGo_mem _ _ _ _ _ h1
    exact buildSection_rules c t items ord hc.symm

/-- The single rule the ordinal-marked witness input parses to: the list
marker `1.` survives in the content (the marker-stripping regex requires
whitespace directly after one marker character). -/
def ordinalRule : RuleItem := { content := "1. one" }

/-- Witness for claim C10 at an ordinal-marked input. -/
theorem fromAgentsMd_rules_unordered_witness :
    (Section.rules "Rules" [ordinalRule] false
      ∈ (fromAgentsMd "## Rules\n1. one\n" sampleMd).content.sections)
    ∧ false = false :=
  ⟨by decide,
   fromAgentsMd_rules_unordered "## Rules\n1. one\n" sampleMd "Rules"
     [ordinalRule] false (by decide)⟩

end PRPM
